import Mathlib

/-!
Verification of the Ekubo SDK core against its specification.

The TypeScript sources are shallowly embedded:
* JS strings are `List Char`;
* JS `bigint` is `Int` (with truncating division `Int.tdiv` / remainder
  `Int.tmod`, matching JS `bigint` semantics);
* JS `number` values reaching `Math.floor` are modelled as `Rat`
  (every finite IEEE double is a rational and `Math.floor` is exact);
* fallible code (`BigInt(...)` throws on bad input, missing router
  configuration, ...) returns `Option` / `Except`.
-/

set_option maxRecDepth 8192

namespace Ekubo

/-- JS strings, modelled as lists of characters. -/
abbrev JStr := List Char

/-- Embed a Lean string literal as a JS string. -/
def chars (s : String) : JStr := s.data

/-- Value of one hexadecimal digit character, as accepted by JS `BigInt("0x…")`. -/
def hexDigitVal? (c : Char) : Option Nat :=
  if '0' ≤ c ∧ c ≤ '9' then some (c.toNat - '0'.toNat)
  else if 'a' ≤ c ∧ c ≤ 'f' then some (c.toNat - 'a'.toNat + 10)
  else if 'A' ≤ c ∧ c ≤ 'F' then some (c.toNat - 'A'.toNat + 10)
  else none

/-- Value of one decimal digit character. -/
def decDigitVal? (c : Char) : Option Nat :=
  if '0' ≤ c ∧ c ≤ '9' then some (c.toNat - '0'.toNat)
  else none

/-- Left-to-right accumulation of hex digits; `none` on a non-digit. -/
def parseHexDigitsAux : List Char → Nat → Option Nat
  | [], acc => some acc
  | c :: cs, acc =>
    match hexDigitVal? c with
    | some d => parseHexDigitsAux cs (acc * 16 + d)
    | none => none

/-- Parse a non-empty run of hex digits (the part after `0x`). -/
def parseHexDigits (cs : List Char) : Option Nat :=
  if cs.isEmpty then none else parseHexDigitsAux cs 0

/-- Left-to-right accumulation of decimal digits; `none` on a non-digit. -/
def parseDecDigitsAux : List Char → Nat → Option Nat
  | [], acc => some acc
  | c :: cs, acc =>
    match decDigitVal? c with
    | some d => parseDecDigitsAux cs (acc * 10 + d)
    | none => none

/-- Parse a non-empty run of decimal digits. -/
def parseDecDigits (cs : List Char) : Option Nat :=
  if cs.isEmpty then none else parseDecDigitsAux cs 0

/-- JS `BigInt(string)` on the address/amount shapes the SDK feeds it:
an optional sign followed by decimal digits, or an (unsigned) `0x`/`0X`
hexadecimal literal.  Inputs outside these shapes are rejected (`none`),
modelling the `SyntaxError` JS throws. -/
def jsBigInt? : List Char → Option Int
  | '-' :: rest => (parseDecDigits rest).map (fun n => -(n : Int))
  | '+' :: rest => (parseDecDigits rest).map (fun n => (n : Int))
  | '0' :: 'x' :: rest => (parseHexDigits rest).map (fun n => (n : Int))
  | '0' :: 'X' :: rest => (parseHexDigits rest).map (fun n => (n : Int))
  | cs => (parseDecDigits cs).map (fun n => (n : Int))

/-- Hex digits of `n`, most significant first, produced exactly as
`BigInt.prototype.toString(16)` does (lowercase, `"0"` for zero).
The first argument is recursion fuel; `n + 1` is always enough. -/
def natHexDigitsAux : Nat → Nat → List Char
  | 0, _ => []
  | fuel + 1, n =>
    if n < 16 then [Nat.digitChar n]
    else natHexDigitsAux fuel (n / 16) ++ [Nat.digitChar (n % 16)]

/-- Hex digit string of a natural number, as `toString(16)` renders it. -/
def natHexDigits (n : Nat) : List Char :=
  natHexDigitsAux (n + 1) n

/-- Decimal digits of `n`, most significant first (JS `toString()`). -/
def natDecDigitsAux : Nat → Nat → List Char
  | 0, _ => []
  | fuel + 1, n =>
    if n < 10 then [Nat.digitChar n]
    else natDecDigitsAux fuel (n / 10) ++ [Nat.digitChar (n % 10)]

/-- Decimal digit string of a natural number. -/
def natDecDigits (n : Nat) : List Char :=
  natDecDigitsAux (n + 1) n

/-- `src/utils/hex.ts` `toHex` on a numeric (`bigint`/integral `number`)
value: `"0x" + BigInt(value).toString(16)`.  A negative bigint renders as
`0x-…` because JS `toString(16)` puts the sign inside the digits. -/
def toHexInt (v : Int) : JStr :=
  if v < 0 then '0' :: 'x' :: '-' :: natHexDigits v.natAbs
  else '0' :: 'x' :: natHexDigits v.natAbs

/-- `src/utils/hex.ts` `toHex` on a string argument: parse with `BigInt`
(hex or decimal) and re-render as `0x…`. -/
def toHexOfChars (cs : JStr) : Option JStr :=
  (jsBigInt? cs).map toHexInt

/-- `src/utils/hex.ts` `normalizeAddress`: `toHex(address).toLowerCase()`. -/
def normalizeAddress (cs : JStr) : Option JStr :=
  (toHexOfChars cs).map (List.map Char.toLower)

/-- JS decimal rendering of a signed bigint (`amount.toString()`). -/
def intDecChars (v : Int) : JStr :=
  if v < 0 then '-' :: natDecDigits v.natAbs else natDecDigits v.natAbs

/-- JS truncating remainder `%` on bigints (sign follows the dividend). -/
def jsRem (a b : Int) : Int := Int.tmod a b

/-- JS truncating division `/` on bigints (rounds toward zero). -/
def jsDiv (a b : Int) : Int := Int.tdiv a b

/-- JS arithmetic right shift `v >> k` on bigints (floor division). -/
def jsShiftRight (v : Int) (k : Nat) : Int :=
  match v with
  | .ofNat n => .ofNat (n / 2 ^ k)
  | .negSucc n => .negSucc (n / 2 ^ k)

/-- `src/utils/hex.ts` `splitU256`: low/high 128-bit halves as hex words. -/
def splitU256 (value : Int) : JStr × JStr :=
  (toHexInt (jsRem value ((2 ^ 128 : Nat) : Int)),
   toHexInt (jsShiftRight value 128))

/-- `src/utils/bigint.ts` `abs`. -/
def intAbs (value : Int) : Int := if value < 0 then -value else value

/-- `src/utils/bigint.ts` `addSlippage`:
`amount + (amount * slippagePercent) / 100n` with JS bigint division. -/
def addSlippage (amount slippagePercent : Int) : Int :=
  amount + jsDiv (amount * slippagePercent) 100

/-- `src/utils/bigint.ts` `subtractSlippage`. -/
def subtractSlippage (amount slippagePercent : Int) : Int :=
  amount - jsDiv (amount * slippagePercent) 100

/-- The closed error taxonomy of `src/errors/index.ts`.  `generic` stands
for a plain JS `Error` (no SDK class). -/
inductive EkuboError where
  | generic (msg : JStr)
  | insufficientLiquidity
  | apiError (statusCode : Option Nat)
  | rateLimit
  | timeout
  | abortError
  | tokenNotFound
  | invalidChain
  deriving DecidableEq, Repr

/-- The `name` property each error class sets in its constructor. -/
def errName : EkuboError → JStr
  | .generic _ => chars "Error"
  | .insufficientLiquidity => chars "InsufficientLiquidityError"
  | .apiError _ => chars "ApiError"
  | .rateLimit => chars "RateLimitError"
  | .timeout => chars "TimeoutError"
  | .abortError => chars "AbortError"
  | .tokenNotFound => chars "TokenNotFoundError"
  | .invalidChain => chars "InvalidChainError"

/-- `src/errors/index.ts` `isNonRetryableError`. -/
def isNonRetryableError : EkuboError → Bool
  | .insufficientLiquidity => true
  | .abortError => true
  | .tokenNotFound => true
  | .invalidChain => true
  | _ => false

/-- A `total_calculated` value from the API: a JSON string or number.
The number is modelled as a rational (finite doubles are rationals and
`Math.floor` on them is exact). -/
inductive TotalCalculated where
  | str (s : JStr)
  | num (x : Rat)
  deriving DecidableEq

/-- JS `Math.floor` on a finite double. -/
def jsMathFloor (x : Rat) : Int := ⌊x⌋

/-- `src/utils/bigint.ts` `parseTotalCalculated`: `BigInt` the string (or
`Math.floor` the number first), then take the absolute value.  `none`
models the exception `BigInt` throws on a malformed string. -/
def parseTotalCalculated : TotalCalculated → Option Int
  | .str s => (jsBigInt? s).map intAbs
  | .num x => some (intAbs (jsMathFloor x))

/-- `src/types/quote.ts` `PoolKey`. -/
structure PoolKey where
  token0 : JStr
  token1 : JStr
  fee : JStr
  tick_spacing : Int
  extension : JStr
  deriving DecidableEq, Repr

/-- `src/types/quote.ts` `RouteNode`. -/
structure RouteNode where
  pool_key : PoolKey
  sqrt_ratio_limit : JStr
  skip_ahead : Int
  deriving DecidableEq, Repr

/-- `src/types/quote.ts` `SwapSplit`. -/
structure SwapSplit where
  amount_specified : JStr
  route : List RouteNode
  deriving DecidableEq, Repr

/-- `src/types/quote.ts` `SwapQuote` (the normalized quote). -/
structure SwapQuote where
  impact : Rat
  total : Int
  splits : List SwapSplit
  deriving DecidableEq

/-- A contract call descriptor (`src/types/calls.ts` `SwapCall`). -/
structure SwapCall where
  contractAddress : JStr
  entrypoint : JStr
  calldata : List JStr
  deriving DecidableEq, Repr, Inhabited

/-- `src/types/calls.ts` `SwapCallsResult`. -/
structure SwapCallsResult where
  transferCall : SwapCall
  swapCalls : List SwapCall
  clearCall : SwapCall
  allCalls : List SwapCall
  deriving DecidableEq, Repr, Inhabited

/-- `src/calls/encoder.ts` `EncodedRoute`. -/
structure EncodedRoute where
  token : JStr
  encoded : List JStr
  deriving DecidableEq, Repr

/-- `src/calls/encoder.ts` `encodeRouteNode`: decide the hop direction by
numeric comparison of the current token with `pool_key.token1`, then emit
the eight calldata words of the hop.  `none` models the exception thrown
when `BigInt` rejects one of the strings. -/
def encodeRouteNode (routeNode : RouteNode) (currentToken : JStr) :
    Option (JStr × List JStr) :=
  match jsBigInt? currentToken, jsBigInt? routeNode.pool_key.token1,
      jsBigInt? routeNode.sqrt_ratio_limit with
  | some cur, some tok1, some sqrtRatioLimit =>
    let nextToken :=
      if cur = tok1 then routeNode.pool_key.token0 else routeNode.pool_key.token1
    some (nextToken,
      [routeNode.pool_key.token0,
       routeNode.pool_key.token1,
       routeNode.pool_key.fee,
       toHexInt routeNode.pool_key.tick_spacing,
       routeNode.pool_key.extension,
       toHexInt (jsRem sqrtRatioLimit ((2 ^ 128 : Nat) : Int)),
       toHexInt (jsShiftRight sqrtRatioLimit 128),
       toHexInt routeNode.skip_ahead])
  | _, _, _ => none

/-- `src/calls/encoder.ts` `encodeRoute`: fold the hops left to right,
threading the current token, starting from the target token. -/
def encodeRoute (route : List RouteNode) (targetToken : JStr) :
    Option EncodedRoute :=
  route.foldl
    (fun memo? routeNode =>
      memo?.bind fun memo =>
        (encodeRouteNode routeNode memo.token).map fun r =>
          { token := r.1, encoded := memo.encoded ++ r.2 })
    (some { token := targetToken, encoded := [] })

/-- `src/chains/constants.ts` `CHAIN_IDS.MAINNET`. -/
def CHAIN_ID_MAINNET : JStr := chars "23448594291968334"

/-- `src/chains/constants.ts` `CHAIN_IDS.SEPOLIA`. -/
def CHAIN_ID_SEPOLIA : JStr := chars "393402133025997798000961"

/-- `src/chains/constants.ts` `ROUTER_ADDRESSES[MAINNET]`. -/
def ROUTER_ADDRESS_MAINNET : JStr :=
  chars "0x0199741822c2dc722f6f605204f35e56dbc23bceed54818168c4c49e4fb8737e"

/-- `src/chains/constants.ts` `ROUTER_ADDRESSES[SEPOLIA]`. -/
def ROUTER_ADDRESS_SEPOLIA : JStr :=
  chars "0x0045f933adf0607292468ad1c1dedaa74d5ad166392590e72676a34d01d7b763"

/-- `src/chains/constants.ts` `API_URLS.QUOTER`. -/
def API_URL_QUOTER : JStr := chars "https://prod-api-quoter.ekubo.org"

/-- `ROUTER_ADDRESSES[chainId]` lookup. -/
def routerAddressFor (chainId : JStr) : Option JStr :=
  if chainId = CHAIN_ID_MAINNET then some ROUTER_ADDRESS_MAINNET
  else if chainId = CHAIN_ID_SEPOLIA then some ROUTER_ADDRESS_SEPOLIA
  else none

/-- Router resolution in `generateSwapCalls` / `prepareSwapCalls`:
`customRouterAddress ?? ROUTER_ADDRESSES[chainId]`. -/
def resolveRouterAddress (chainId : JStr) (custom : Option JStr) : Option JStr :=
  match custom with
  | some r => some r
  | none => routerAddressFor chainId

/-- `src/calls/generator.ts` `GenerateSwapCallsParams` (with the defaults
of the destructuring already applied by the caller model: `chainId`
defaults to mainnet, `slippagePercent` to `5n`). -/
structure GenerateSwapCallsParams where
  sellToken : JStr
  buyToken : JStr
  minimumReceived : Int
  quote : SwapQuote
  chainId : JStr := CHAIN_ID_MAINNET
  routerAddress : Option JStr := none
  slippagePercent : Int := 5
  deriving DecidableEq

/-- `src/calls/generator.ts` `generateSingleRouteSwap`: one
`multihop_swap` call. -/
def generateSingleRouteSwap (split : SwapSplit) (targetToken routerAddress : JStr) :
    Option (List SwapCall) :=
  match encodeRoute split.route targetToken, jsBigInt? split.amount_specified with
  | some routeCalldata, some amountSpecified =>
    some [{ contractAddress := routerAddress,
            entrypoint := chars "multihop_swap",
            calldata := toHexInt split.route.length ::
              (routeCalldata.encoded ++
                [targetToken, toHexInt (intAbs amountSpecified), chars "0x1"]) }]
  | _, _ => none

/-- The `reduce` in `generateMultiRouteSwap`: concatenate each split's
payload (hop count, hop records, target token, |amount|, flag). -/
def multiRouteCalldata (splits : List SwapSplit) (targetToken : JStr) :
    Option (List JStr) :=
  splits.foldl
    (fun memo? split =>
      memo?.bind fun memo =>
        match encodeRoute split.route targetToken, jsBigInt? split.amount_specified with
        | some routeCalldata, some amountSpecified =>
          some (memo ++
            (toHexInt split.route.length ::
              (routeCalldata.encoded ++
                [targetToken, toHexInt (intAbs amountSpecified), chars "0x1"])))
        | _, _ => none)
    (some [])

/-- `src/calls/generator.ts` `generateMultiRouteSwap`: one
`multi_multihop_swap` call. -/
def generateMultiRouteSwap (splits : List SwapSplit) (targetToken routerAddress : JStr) :
    Option (List SwapCall) :=
  (multiRouteCalldata splits targetToken).map fun cd =>
    [{ contractAddress := routerAddress,
       entrypoint := chars "multi_multihop_swap",
       calldata := toHexInt splits.length :: cd }]

/-- `src/calls/generator.ts` `generateSwapCalls`. -/
def generateSwapCalls (p : GenerateSwapCallsParams) :
    Except EkuboError SwapCallsResult :=
  match resolveRouterAddress p.chainId p.routerAddress with
  | none => .error .invalidChain
  | some routerAddress =>
    match normalizeAddress p.sellToken, normalizeAddress p.buyToken with
    | some normalizedSellToken, some normalizedBuyToken =>
      let totalWithSlippage := addSlippage p.quote.total p.slippagePercent
      let transferCall : SwapCall :=
        { contractAddress := normalizedSellToken,
          entrypoint := chars "transfer",
          calldata := [routerAddress, toHexInt totalWithSlippage, chars "0x0"] }
      let clearCall : SwapCall :=
        { contractAddress := routerAddress,
          entrypoint := chars "clear",
          calldata := [normalizedSellToken] }
      match p.quote.splits with
      | [] =>
        .ok { transferCall := transferCall, swapCalls := [],
              clearCall := clearCall, allCalls := [transferCall, clearCall] }
      | s0 :: rest =>
        let clearMinimumCall : SwapCall :=
          { contractAddress := routerAddress,
            entrypoint := chars "clear_minimum",
            calldata := [normalizedBuyToken, toHexInt p.minimumReceived, chars "0x0"] }
        match
          (if rest = [] then
            generateSingleRouteSwap s0 normalizedBuyToken routerAddress
          else
            generateMultiRouteSwap (s0 :: rest) normalizedBuyToken routerAddress)
        with
        | none => .error (.generic (chars "SyntaxError"))
        | some generated =>
          let swapCalls := generated ++ [clearMinimumCall]
          .ok { transferCall := transferCall, swapCalls := swapCalls,
                clearCall := clearCall,
                allCalls := transferCall :: (swapCalls ++ [clearCall]) }
    | _, _ => .error (.generic (chars "SyntaxError"))

/-- `src/calls/generator.ts` `prepareSwapCalls`: `generateSwapCalls` plus
a prepended ERC-20 `approve` call for the same slippage-buffered amount. -/
def prepareSwapCalls (p : GenerateSwapCallsParams) :
    Except EkuboError (SwapCallsResult × SwapCall) :=
  match generateSwapCalls p with
  | .error e => .error e
  | .ok result =>
    match resolveRouterAddress p.chainId p.routerAddress with
    | none => .error .invalidChain
    | some routerAddress =>
      match normalizeAddress p.sellToken with
      | none => .error (.generic (chars "SyntaxError"))
      | some normalizedSellToken =>
        let totalWithSlippage := addSlippage p.quote.total p.slippagePercent
        let approveCall : SwapCall :=
          { contractAddress := normalizedSellToken,
            entrypoint := chars "approve",
            calldata := [routerAddress, toHexInt totalWithSlippage, chars "0x0"] }
        .ok ({ result with allCalls := approveCall :: result.allCalls }, approveCall)

/-- `src/utils/retry.ts` `withRetry`, as a deterministic loop over an
oracle: `fn i` is the outcome of the `i`-th invocation of the operation
and `aborted i` the state of the abort signal observed before attempt `i`.
Backoff sleeps carry no observable state here and are dropped.  The
result pairs the final outcome with the number of times the operation was
invoked.  `remaining` counts the loop iterations still allowed
(`maxRetries - attempt`). -/
def retryLoop {T : Type} (fn : Nat → Except EkuboError T) (aborted : Nat → Bool) :
    Nat → Nat → Option EkuboError → Except EkuboError T × Nat
  | 0, _, lastError =>
    (.error (lastError.getD (.generic (chars "Unknown error after retries"))), 0)
  | remaining + 1, attempt, _lastError =>
    if aborted attempt then (.error (.generic (chars "Request aborted")), 0)
    else
      match fn attempt with
      | .ok v => (.ok v, 1)
      | .error e =>
        if errName e = chars "AbortError" then (.error e, 1)
        else if isNonRetryableError e then (.error e, 1)
        else if remaining = 0 then (.error e, 1)
        else
          let res := retryLoop fn aborted remaining (attempt + 1) (some e)
          (res.1, res.2 + 1)

/-- `withRetry(fn, {maxRetries, …, signal})`: run the loop from attempt 0
with no recorded error. -/
def withRetry {T : Type} (fn : Nat → Except EkuboError T) (maxRetries : Nat)
    (aborted : Nat → Bool) : Except EkuboError T × Nat :=
  retryLoop fn aborted maxRetries 0 none

/-- An error is retried by `withRetry` iff its `name` is not
`"AbortError"` and `isNonRetryableError` rejects it. -/
def retryableError (e : EkuboError) : Bool :=
  decide (errName e ≠ chars "AbortError") && !isNonRetryableError e

/-- The raw fields of a successful quoter response body
(`src/types/quote.ts` `SwapQuoteApiResponse`). -/
structure SwapQuoteApiResponse where
  price_impact : Rat
  total_calculated : TotalCalculated
  splits : List SwapSplit
  deriving DecidableEq

/-- One observed HTTP exchange of `fetchSwapQuote`, classified the way
the code branches on it. -/
inductive FetchOutcome where
  /-- `response.ok`, body parsed, no `error` field. -/
  | okBody (body : SwapQuoteApiResponse)
  /-- `response.ok` with an `error` field in the body. -/
  | okErrorField (msg : JStr)
  /-- HTTP 404; `some msg` when the body parsed to `{error: msg}`. -/
  | notFound (parsedError : Option JStr)
  /-- HTTP 429 with an optional `Retry-After` header. -/
  | rateLimited (retryAfter : Option JStr)
  /-- Any other non-success status. -/
  | otherStatus (code : Nat)
  /-- `fetch` itself threw (network failure, or the abort/timeout signal). -/
  | fetchThrew (e : EkuboError)

/-- Whether `pat` occurs as a contiguous run inside the second list
(JS `String.prototype.includes`). -/
def containsSeq (pat : JStr) : JStr → Bool
  | [] => List.isPrefixOf pat []
  | c :: cs => List.isPrefixOf pat (c :: cs) || containsSeq pat cs

/-- Whether an error string contains `"Insufficient liquidity"`
(JS `String.prototype.includes`). -/
def mentionsInsufficientLiquidity (msg : JStr) : Bool :=
  containsSeq (chars "Insufficient liquidity") msg

/-- What one iteration of the `fetchSwapQuote` `try` block produces for a
non-429 outcome: either a normalized quote or the error it throws. -/
def fetchAttemptResult : FetchOutcome → Except EkuboError SwapQuote
  | .okBody body =>
    match parseTotalCalculated body.total_calculated with
    | some total =>
      .ok { impact := body.price_impact, total := total, splits := body.splits }
    | none => .error (.generic (chars "SyntaxError"))
  | .okErrorField msg =>
    if mentionsInsufficientLiquidity msg then .error .insufficientLiquidity
    else .error (.apiError none)
  | .notFound parsedError =>
    match parsedError with
    | some msg =>
      if mentionsInsufficientLiquidity msg then .error .insufficientLiquidity
      else .error (.apiError (some 404))
    | none => .error (.apiError (some 404))
  | .rateLimited _ => .error .rateLimit
  | .otherStatus code => .error (.apiError (some code))
  | .fetchThrew e => .error e

/-- The retry loop of `src/api/quote.ts` `fetchSwapQuote` (lines 70-187),
over an oracle of HTTP outcomes.  As in `retryLoop`, the result carries
the number of network requests issued.  A 429 before the final attempt
sleeps and `continue`s without updating `lastError`; every thrown error
is classified in the `catch` block exactly as the code does. -/
def fetchQuoteLoop (outcomes : Nat → FetchOutcome) (aborted : Nat → Bool) :
    Nat → Nat → Option EkuboError → Except EkuboError SwapQuote × Nat
  | 0, _, lastError =>
    (.error (lastError.getD (.apiError none)), 0)
  | remaining + 1, attempt, lastError =>
    if aborted attempt then (.error .abortError, 0)
    else
      match outcomes attempt with
      | .rateLimited _ =>
        if remaining = 0 then (.error .rateLimit, 1)
        else
          let res := fetchQuoteLoop outcomes aborted remaining (attempt + 1) lastError
          (res.1, res.2 + 1)
      | o =>
        match fetchAttemptResult o with
        | .ok q => (.ok q, 1)
        | .error e =>
          if errName e = chars "AbortError" then (.error .abortError, 1)
          else if e = .insufficientLiquidity then (.error e, 1)
          else if remaining = 0 then (.error e, 1)
          else
            let res := fetchQuoteLoop outcomes aborted remaining (attempt + 1) (some e)
            (res.1, res.2 + 1)

/-- The URL built by `fetchSwapQuote` (lines 62-68): for a negative
(exact-output) amount the two token addresses swap places. -/
def fetchQuoteUrl (amount : Int) (tokenFrom tokenTo chainId : JStr) :
    Option JStr :=
  match normalizeAddress tokenFrom, normalizeAddress tokenTo with
  | some normalizedTokenFrom, some normalizedTokenTo =>
    some
      (if amount < 0 then
        API_URL_QUOTER ++ chars "/" ++ chainId ++ chars "/" ++
          intDecChars amount ++ chars "/" ++ normalizedTokenTo ++ chars "/" ++
          normalizedTokenFrom
      else
        API_URL_QUOTER ++ chars "/" ++ chainId ++ chars "/" ++
          intDecChars amount ++ chars "/" ++ normalizedTokenFrom ++ chars "/" ++
          normalizedTokenTo)
  | _, _ => none

/-- `src/polling/poller.ts` `PollingConfig` with its defaults. -/
structure PollingConfig where
  interval : Nat := 5000
  maxConsecutiveErrors : Nat := 3
  deriving DecidableEq, Repr

/-- The mutable fields of a `QuotePoller` instance: whether the repeating
timer is armed (`intervalId !== null`), whether an `AbortController` is
held, the consecutive-error counter, and the running flag. -/
structure PollerState where
  intervalArmed : Bool
  hasAbortController : Bool
  consecutiveErrors : Nat
  isRunning : Bool
  deriving DecidableEq, Repr

/-- The reason passed to the `onStop` callback. -/
inductive StopReason where
  | manual
  | errors
  deriving DecidableEq, Repr

/-- Observable effects of a poller step, in emission order. -/
inductive PollerEvent where
  /-- `fetchSwapQuote` was actually invoked. -/
  | fetchIssued
  | onQuote
  | onError
  | onStop (reason : StopReason)
  deriving DecidableEq, Repr

/-- How one `fetchQuote` call settles, from the poller's point of view:
success, rejection with an error named `"AbortError"` (ignored during
shutdown), or any other failure. -/
inductive PollFetchOutcome where
  | success
  | abortNamed
  | failure
  deriving DecidableEq, Repr

/-- A freshly constructed `QuotePoller`. -/
def pollerInitial : PollerState :=
  { intervalArmed := false, hasAbortController := false,
    consecutiveErrors := 0, isRunning := false }

/-- `QuotePoller.start`: no-op when already running; otherwise reset the
error counter, create an abort controller, and arm the timer.  (The
immediate first fetch it fires is delivered later as a
`pollerHandleFetch` step.) -/
def pollerStart (s : PollerState) : PollerState :=
  if s.isRunning then s
  else
    { intervalArmed := true, hasAbortController := true,
      consecutiveErrors := 0, isRunning := true }

/-- `QuotePoller.stop`: no-op when not running; otherwise disarm the
timer, abort the in-flight fetch, and report a manual stop. -/
def pollerStop (s : PollerState) : PollerState × List PollerEvent :=
  if !s.isRunning then (s, [])
  else
    ({ intervalArmed := false, hasAbortController := false,
       consecutiveErrors := s.consecutiveErrors, isRunning := false },
     [.onStop .manual])

/-- `QuotePoller.fetchQuote` (lines 131-164) together with
`stopDueToErrors` (lines 169-183): the guard returns without touching the
network when the poller is not running or holds no abort controller;
otherwise the fetch is issued and its settlement handled as the code
does. -/
def pollerHandleFetch (config : PollingConfig) (s : PollerState)
    (outcome : PollFetchOutcome) : PollerState × List PollerEvent :=
  if !s.isRunning || !s.hasAbortController then (s, [])
  else
    match outcome with
    | .success => ({ s with consecutiveErrors := 0 }, [.fetchIssued, .onQuote])
    | .abortNamed => (s, [.fetchIssued])
    | .failure =>
      let s1 := { s with consecutiveErrors := s.consecutiveErrors + 1 }
      if config.maxConsecutiveErrors ≤ s1.consecutiveErrors then
        ({ s1 with isRunning := false, intervalArmed := false,
                   hasAbortController := false },
         [.fetchIssued, .onError, .onStop .errors])
      else (s1, [.fetchIssued, .onError])

/-! Concrete data mirroring `tests/fixtures/quotes.ts`, used to exercise
the definitions on the inputs the repository's own tests use. -/

/-- `TEST_ADDRESSES.ETH`. -/
def ETH_ADDRESS : JStr :=
  chars "0x049d36570d4e46f48e99674bd3fcc84644ddd6b96f7c741b1562b82f9e004dc7"

/-- `TEST_ADDRESSES.STRK`. -/
def STRK_ADDRESS : JStr :=
  chars "0x04718f5a0fc34cc1af16a1cdee98ffb20c31f5cd61d6ab07201858f4287c938d"

/-- `MOCK_ROUTE_NODE`. -/
def MOCK_ROUTE_NODE : RouteNode :=
  { pool_key :=
      { token0 := ETH_ADDRESS
      , token1 := STRK_ADDRESS
      , fee := chars "0x20c49ba5e353f80000000000000000"
      , tick_spacing := 200
      , extension := chars "0x0" }
  , sqrt_ratio_limit := chars "18446748437148339061"
  , skip_ahead := 0 }

/-- `MOCK_SINGLE_SPLIT`. -/
def MOCK_SINGLE_SPLIT : SwapSplit :=
  { amount_specified := chars "-1000000000000000000"
  , route := [MOCK_ROUTE_NODE] }

/-- `MOCK_SINGLE_ROUTE_QUOTE`. -/
def MOCK_SINGLE_ROUTE_QUOTE : SwapQuote :=
  { impact := 0, total := 50000000000000000000, splits := [MOCK_SINGLE_SPLIT] }

/-- `MOCK_MULTI_ROUTE_QUOTE` (two splits over the same pool). -/
def MOCK_MULTI_ROUTE_QUOTE : SwapQuote :=
  { impact := 0
  , total := 51000000000000000000
  , splits :=
      [{ amount_specified := chars "-500000000000000000", route := [MOCK_ROUTE_NODE] },
       { amount_specified := chars "-500000000000000000", route := [MOCK_ROUTE_NODE] }] }

/-- `MOCK_EMPTY_QUOTE`. -/
def MOCK_EMPTY_QUOTE : SwapQuote :=
  { impact := 0, total := 0, splits := [] }

/-- The generator parameters the repository's tests use (single route). -/
def SINGLE_ROUTE_PARAMS : GenerateSwapCallsParams :=
  { sellToken := ETH_ADDRESS
  , buyToken := STRK_ADDRESS
  , minimumReceived := 49000000000000000000
  , quote := MOCK_SINGLE_ROUTE_QUOTE }

/-- The same parameters with the empty quote. -/
def EMPTY_QUOTE_PARAMS : GenerateSwapCallsParams :=
  { SINGLE_ROUTE_PARAMS with quote := MOCK_EMPTY_QUOTE }

/-- The same parameters with the two-split quote and 10% slippage. -/
def MULTI_ROUTE_PARAMS : GenerateSwapCallsParams :=
  { SINGLE_ROUTE_PARAMS with quote := MOCK_MULTI_ROUTE_QUOTE, slippagePercent := 10 }

/-- A small pool fixture (`token0 = 0xa`, `token1 = 0xb`) for exercising
the hop-direction logic with differently spelled addresses. -/
def POOL_AB_NODE : RouteNode :=
  { pool_key :=
      { token0 := chars "0xa"
      , token1 := chars "0xb"
      , fee := chars "0x0"
      , tick_spacing := 1
      , extension := chars "0x0" }
  , sqrt_ratio_limit := chars "0x1"
  , skip_ahead := 0 }

/-- The single-route parameters with 10% slippage (the slippage test of
the repository: 50 STRK + 10% = 55 STRK). -/
def SLIPPAGE10_PARAMS : GenerateSwapCallsParams :=
  { SINGLE_ROUTE_PARAMS with slippagePercent := 10 }

/-- Extract the `ok` payload of a generator run (fixtures only). -/
def resultOf (p : GenerateSwapCallsParams) : SwapCallsResult :=
  (generateSwapCalls p).toOption.getD default

/-- Extract the `ok` payload of a `prepareSwapCalls` run (fixtures only). -/
def prepareResultOf (p : GenerateSwapCallsParams) : SwapCallsResult × SwapCall :=
  (prepareSwapCalls p).toOption.getD default

/-! ## Theorems -/

/-- Whenever `generateSingleRouteSwap` succeeds, it returns exactly one
call, a `multihop_swap` on the router. -/
theorem generateSingleRouteSwap_shape (split : SwapSplit) (targetToken routerAddress : JStr)
    (l : List SwapCall) (h : generateSingleRouteSwap split targetToken routerAddress = some l) :
    ∃ c : SwapCall, l = [c] ∧ c.entrypoint = chars "multihop_swap" ∧
      c.contractAddress = routerAddress := by
  unfold generateSingleRouteSwap at h
  split at h
  case _ rc amt heq1 heq2 =>
    exact ⟨_, by injection h with h; exact h.symm, rfl, rfl⟩
  case _ =>
    exact absurd h (by simp)

/-- Whenever `generateMultiRouteSwap` succeeds, it returns exactly one
call, a `multi_multihop_swap` on the router. -/
theorem generateMultiRouteSwap_shape (splits : List SwapSplit) (targetToken routerAddress : JStr)
    (l : List SwapCall) (h : generateMultiRouteSwap splits targetToken routerAddress = some l) :
    ∃ c : SwapCall, l = [c] ∧ c.entrypoint = chars "multi_multihop_swap" ∧
      c.contractAddress = routerAddress := by
  unfold generateMultiRouteSwap at h
  cases hcd : multiRouteCalldata splits targetToken with
  | none => rw [hcd] at h; exact absurd h (by simp)
  | some cd =>
    rw [hcd] at h
    exact ⟨_, by injection h with h; exact h.symm, rfl, rfl⟩

/-- C1: encoding an empty-split quote yields exactly the two calls
`[transfer, clear]`; a quote with splits yields exactly
`[transfer, swap, clear_minimum, clear]`, where the swap call's entry
point is `multihop_swap` for one split and `multi_multihop_swap` for two
or more. -/
theorem generateSwapCalls_c1 (p : GenerateSwapCallsParams) (r : SwapCallsResult)
    (h : generateSwapCalls p = .ok r) :
    (p.quote.splits = [] →
      r.swapCalls = [] ∧
      r.allCalls = [r.transferCall, r.clearCall] ∧
      r.transferCall.entrypoint = chars "transfer" ∧
      r.clearCall.entrypoint = chars "clear") ∧
    (p.quote.splits ≠ [] →
      r.allCalls = r.transferCall :: (r.swapCalls ++ [r.clearCall]) ∧
      r.swapCalls.length = 2 ∧
      (r.swapCalls.map SwapCall.entrypoint).get? 1 = some (chars "clear_minimum") ∧
      r.transferCall.entrypoint = chars "transfer" ∧
      r.clearCall.entrypoint = chars "clear" ∧
      (p.quote.splits.length = 1 →
        (r.swapCalls.map SwapCall.entrypoint).get? 0 = some (chars "multihop_swap")) ∧
      (2 ≤ p.quote.splits.length →
        (r.swapCalls.map SwapCall.entrypoint).get? 0 = some (chars "multi_multihop_swap"))) := by
  unfold generateSwapCalls at h
  cases hR : resolveRouterAddress p.chainId p.routerAddress with
  | none => rw [hR] at h; exact absurd h (by simp)
  | some routerAddress =>
  rw [hR] at h
  cases hS : normalizeAddress p.sellToken with
  | none => rw [hS] at h; exact absurd h (by simp)
  | some normalizedSellToken =>
  cases hB : normalizeAddress p.buyToken with
  | none => rw [hS, hB] at h; exact absurd h (by simp)
  | some normalizedBuyToken =>
  rw [hS, hB] at h
  simp only at h
  cases hsplits : p.quote.splits with
  | nil =>
    rw [hsplits] at h
    simp only at h
    injection h with h
    subst h
    exact ⟨fun _ => ⟨rfl, rfl, rfl, rfl⟩, fun hne => absurd rfl hne⟩
  | cons s0 rest =>
    rw [hsplits] at h
    simp only at h
    by_cases hrest : rest = []
    · rw [if_pos hrest] at h
      cases hg : generateSingleRouteSwap s0 normalizedBuyToken routerAddress with
      | none => rw [hg] at h; exact absurd h (by simp)
      | some generated =>
        rw [hg] at h
        obtain ⟨c, hc, hcep, hcaddr⟩ :=
          generateSingleRouteSwap_shape s0 normalizedBuyToken routerAddress generated hg
        injection h with h
        subst h hc hrest
        refine ⟨fun hempty => by simp at hempty, fun _ => ?_⟩
        refine ⟨rfl, rfl, rfl, rfl, rfl, fun _ => by simp [hcep], fun hlen => ?_⟩
        exact absurd hlen (by simp)
    · rw [if_neg hrest] at h
      cases hg : generateMultiRouteSwap (s0 :: rest) normalizedBuyToken routerAddress with
      | none => rw [hg] at h; exact absurd h (by simp)
      | some generated =>
        rw [hg] at h
        obtain ⟨c, hc, hcep, hcaddr⟩ :=
          generateMultiRouteSwap_shape (s0 :: rest) normalizedBuyToken routerAddress generated hg
        injection h with h
        subst h hc
        refine ⟨fun hempty => by simp at hempty, fun _ => ?_⟩
        refine ⟨rfl, rfl, rfl, rfl, rfl, fun hlen => ?_, fun _ => by simp [hcep]⟩
        simp [List.length_eq_zero] at hlen
        exact absurd hlen hrest

theorem generateSwapCalls_c1_witness :
    (resultOf SINGLE_ROUTE_PARAMS).allCalls =
      (resultOf SINGLE_ROUTE_PARAMS).transferCall ::
        ((resultOf SINGLE_ROUTE_PARAMS).swapCalls ++ [(resultOf SINGLE_ROUTE_PARAMS).clearCall]) ∧
    (resultOf SINGLE_ROUTE_PARAMS).swapCalls.length = 2 ∧
    (List.map SwapCall.entrypoint (resultOf SINGLE_ROUTE_PARAMS).swapCalls).get? 0 =
      some (chars "multihop_swap") := by
  have h := generateSwapCalls_c1 SINGLE_ROUTE_PARAMS (resultOf SINGLE_ROUTE_PARAMS) rfl
  have h2 := h.2 (by decide)
  exact ⟨h2.1, h2.2.1, h2.2.2.2.2.2.1 (by decide)⟩

/-- Whenever `generateSwapCalls` succeeds, the transfer call is a
`transfer` on the normalized sell token moving the slippage-buffered
total to the router. -/
theorem generateSwapCalls_transferCall (p : GenerateSwapCallsParams) (r : SwapCallsResult)
    (h : generateSwapCalls p = .ok r) :
    ∃ routerAddress sell : JStr,
      resolveRouterAddress p.chainId p.routerAddress = some routerAddress ∧
      normalizeAddress p.sellToken = some sell ∧
      r.transferCall =
        { contractAddress := sell, entrypoint := chars "transfer",
          calldata := [routerAddress,
            toHexInt (addSlippage p.quote.total p.slippagePercent), chars "0x0"] } := by
  unfold generateSwapCalls at h
  cases hR : resolveRouterAddress p.chainId p.routerAddress with
  | none => rw [hR] at h; exact absurd h (by simp)
  | some routerAddress =>
  rw [hR] at h
  cases hS : normalizeAddress p.sellToken with
  | none => rw [hS] at h; exact absurd h (by simp)
  | some sell =>
  cases hB : normalizeAddress p.buyToken with
  | none => rw [hS, hB] at h; exact absurd h (by simp)
  | some buy =>
  rw [hS, hB] at h
  simp only at h
  refine ⟨routerAddress, sell, rfl, rfl, ?_⟩
  cases hsplits : p.quote.splits with
  | nil =>
    rw [hsplits] at h
    simp only at h
    injection h with h
    subst h
    rfl
  | cons s0 rest =>
    rw [hsplits] at h
    simp only at h
    split at h
    · exact absurd h (by simp)
    · injection h with h; subst h; rfl

/-- Whenever `generateSwapCalls` succeeds on a quote with splits, the
second swap call is the `clear_minimum` on the normalized buy token. -/
theorem generateSwapCalls_clearMinimum (p : GenerateSwapCallsParams) (r : SwapCallsResult)
    (h : generateSwapCalls p = .ok r) (hne : p.quote.splits ≠ []) :
    ∃ routerAddress buy : JStr,
      resolveRouterAddress p.chainId p.routerAddress = some routerAddress ∧
      normalizeAddress p.buyToken = some buy ∧
      r.swapCalls.get? 1 =
        some { contractAddress := routerAddress, entrypoint := chars "clear_minimum",
               calldata := [buy, toHexInt p.minimumReceived, chars "0x0"] } := by
  unfold generateSwapCalls at h
  cases hR : resolveRouterAddress p.chainId p.routerAddress with
  | none => rw [hR] at h; exact absurd h (by simp)
  | some routerAddress =>
  rw [hR] at h
  cases hS : normalizeAddress p.sellToken with
  | none => rw [hS] at h; exact absurd h (by simp)
  | some sell =>
  cases hB : normalizeAddress p.buyToken with
  | none => rw [hS, hB] at h; exact absurd h (by simp)
  | some buy =>
  rw [hS, hB] at h
  simp only at h
  refine ⟨routerAddress, buy, rfl, rfl, ?_⟩
  cases hsplits : p.quote.splits with
  | nil => exact absurd hsplits hne
  | cons s0 rest =>
    rw [hsplits] at h
    simp only at h
    by_cases hrest : rest = []
    · rw [if_pos hrest] at h
      cases hg : generateSingleRouteSwap s0 buy routerAddress with
      | none => rw [hg] at h; exact absurd h (by simp)
      | some generated =>
        rw [hg] at h
        obtain ⟨c, hc, _, _⟩ := generateSingleRouteSwap_shape s0 buy routerAddress generated hg
        injection h with h
        subst h hc
        rfl
    · rw [if_neg hrest] at h
      cases hg : generateMultiRouteSwap (s0 :: rest) buy routerAddress with
      | none => rw [hg] at h; exact absurd h (by simp)
      | some generated =>
        rw [hg] at h
        obtain ⟨c, hc, _, _⟩ :=
          generateMultiRouteSwap_shape (s0 :: rest) buy routerAddress generated hg
        injection h with h
        subst h hc
        rfl

/-- Whenever `prepareSwapCalls` succeeds, the approve call is an
`approve` on the normalized sell token for the slippage-buffered total,
prepended to `allCalls`. -/
theorem prepareSwapCalls_approve (p : GenerateSwapCallsParams)
    (rr : SwapCallsResult × SwapCall) (h : prepareSwapCalls p = .ok rr) :
    ∃ routerAddress sell : JStr,
      resolveRouterAddress p.chainId p.routerAddress = some routerAddress ∧
      normalizeAddress p.sellToken = some sell ∧
      rr.2 =
        { contractAddress := sell, entrypoint := chars "approve",
          calldata := [routerAddress,
            toHexInt (addSlippage p.quote.total p.slippagePercent), chars "0x0"] } ∧
      rr.1.allCalls.head? = some rr.2 := by
  unfold prepareSwapCalls at h
  cases hG : generateSwapCalls p with
  | error e => rw [hG] at h; exact absurd h (by simp)
  | ok result =>
  rw [hG] at h
  cases hR : resolveRouterAddress p.chainId p.routerAddress with
  | none => rw [hR] at h; exact absurd h (by simp)
  | some routerAddress =>
  rw [hR] at h
  cases hS : normalizeAddress p.sellToken with
  | none => rw [hS] at h; exact absurd h (by simp)
  | some sell =>
  rw [hS] at h
  simp only at h
  injection h with h
  subst h
  exact ⟨routerAddress, sell, rfl, rfl, rfl, rfl⟩

/-- C2: the transfer call moves exactly
`quote.total + (quote.total * slippagePercent) / 100` of the sell token
(JS bigint division, truncating toward zero); in particular
`addSlippage (5·10^19) 10 = 55·10^18`. -/
theorem generateSwapCalls_c2 (p : GenerateSwapCallsParams) (r : SwapCallsResult)
    (h : generateSwapCalls p = .ok r) :
    r.transferCall.calldata.get? 1 =
      some (toHexInt (p.quote.total + jsDiv (p.quote.total * p.slippagePercent) 100)) ∧
    addSlippage (5 * 10 ^ 19) 10 = 55 * 10 ^ 18 ∧
    jsDiv (-7) 2 = -3 := by
  obtain ⟨routerAddress, sell, _, _, hT⟩ := generateSwapCalls_transferCall p r h
  refine ⟨?_, by decide, by decide⟩
  rw [hT]
  rfl

theorem generateSwapCalls_c2_witness :
    (resultOf SLIPPAGE10_PARAMS).transferCall.calldata.get? 1 =
      some (toHexInt (55 * 10 ^ 18)) := by
  have h := generateSwapCalls_c2 SLIPPAGE10_PARAMS (resultOf SLIPPAGE10_PARAMS) rfl
  rw [h.1]
  decide

/-- C10: in the transfer, `clear_minimum` and approve calls the u256
amount is encoded as `[toHex(amount), "0x0"]`: the high word is the
literal `"0x0"` whatever the magnitude, and the amount is not split with
`splitU256` — at `2^128` the low word keeps the full value while
`splitU256` would zero it. -/
theorem u256Encoding_c10 (p : GenerateSwapCallsParams) (r : SwapCallsResult)
    (rr : SwapCallsResult × SwapCall) (routerAddress buy : JStr)
    (h : generateSwapCalls p = .ok r) (h2 : prepareSwapCalls p = .ok rr)
    (hr : resolveRouterAddress p.chainId p.routerAddress = some routerAddress)
    (hb : normalizeAddress p.buyToken = some buy) :
    r.transferCall.calldata =
      [routerAddress, toHexInt (addSlippage p.quote.total p.slippagePercent),
       chars "0x0"] ∧
    (p.quote.splits ≠ [] →
      r.swapCalls.get? 1 =
        some { contractAddress := routerAddress, entrypoint := chars "clear_minimum",
               calldata := [buy, toHexInt p.minimumReceived, chars "0x0"] }) ∧
    rr.2.calldata =
      [routerAddress, toHexInt (addSlippage p.quote.total p.slippagePercent),
       chars "0x0"] ∧
    (splitU256 ((2 ^ 128 : Nat) : Int)).2 ≠ chars "0x0" ∧
    (splitU256 ((2 ^ 128 : Nat) : Int)).1 = chars "0x0" ∧
    toHexInt ((2 ^ 128 : Nat) : Int) ≠ chars "0x0" := by
  obtain ⟨router1, sell1, hr1, _, hT⟩ := generateSwapCalls_transferCall p r h
  obtain ⟨router2, sell2, hr2, _, hA, _⟩ := prepareSwapCalls_approve p rr h2
  rw [hr] at hr1 hr2
  injection hr1 with hr1
  injection hr2 with hr2
  subst hr1 hr2
  refine ⟨by rw [hT], ?_, by rw [hA], by decide, by decide, by decide⟩
  intro hne
  obtain ⟨router3, buy3, hr3, hb3, hCM⟩ := generateSwapCalls_clearMinimum p r h hne
  rw [hr] at hr3
  rw [hb] at hb3
  injection hr3 with hr3
  injection hb3 with hb3
  subst hr3 hb3
  exact hCM

theorem u256Encoding_c10_witness :
    (resultOf SINGLE_ROUTE_PARAMS).transferCall.calldata =
      [ROUTER_ADDRESS_MAINNET,
       toHexInt (addSlippage MOCK_SINGLE_ROUTE_QUOTE.total 5), chars "0x0"] ∧
    (prepareResultOf SINGLE_ROUTE_PARAMS).2.calldata =
      [ROUTER_ADDRESS_MAINNET,
       toHexInt (addSlippage MOCK_SINGLE_ROUTE_QUOTE.total 5), chars "0x0"] := by
  have h := u256Encoding_c10 SINGLE_ROUTE_PARAMS (resultOf SINGLE_ROUTE_PARAMS)
    (prepareResultOf SINGLE_ROUTE_PARAMS) ROUTER_ADDRESS_MAINNET
    (chars "0x4718f5a0fc34cc1af16a1cdee98ffb20c31f5cd61d6ab07201858f4287c938d")
    rfl rfl (by decide) (by decide)
  exact ⟨h.1, h.2.2.1⟩

/-- C3: `encodeRouteNode` picks the hop's next token by numeric
comparison of the current token with the pool's `token1`: equal values
give `token0`, anything else gives `token1`. -/
theorem encodeRouteNode_c3 (node : RouteNode) (currentToken : JStr)
    (cur tok1 lim : Int)
    (hc : jsBigInt? currentToken = some cur)
    (h1 : jsBigInt? node.pool_key.token1 = some tok1)
    (hl : jsBigInt? node.sqrt_ratio_limit = some lim) :
    (cur = tok1 →
      (encodeRouteNode node currentToken).map Prod.fst = some node.pool_key.token0) ∧
    (cur ≠ tok1 →
      (encodeRouteNode node currentToken).map Prod.fst = some node.pool_key.token1) := by
  unfold encodeRouteNode
  rw [hc, h1, hl]
  constructor
  · intro he
    simp [he]
  · intro hne
    simp [hne]

theorem encodeRouteNode_c3_witness :
    (encodeRouteNode POOL_AB_NODE (chars "0X0B")).map Prod.fst =
      some (chars "0xa") ∧
    (encodeRouteNode POOL_AB_NODE (chars "0xa")).map Prod.fst =
      some (chars "0xb") := by
  constructor
  · exact (encodeRouteNode_c3 POOL_AB_NODE (chars "0X0B")
      11 11 1 (by decide) (by decide) (by decide)).1 (by decide)
  · exact (encodeRouteNode_c3 POOL_AB_NODE (chars "0xa")
      10 11 1 (by decide) (by decide) (by decide)).2 (by decide)

/-- C4: the quote URL embeds, in order, the chain id, the signed amount
in decimal, and the two normalized token addresses; a negative
(exact-output) amount puts the buy token's address before the sell
token's, a non-negative amount the reverse. -/
theorem fetchQuoteUrl_c4 (amount : Int) (tokenFrom tokenTo chainId nf nt : JStr)
    (hf : normalizeAddress tokenFrom = some nf)
    (ht : normalizeAddress tokenTo = some nt) :
    (amount < 0 →
      fetchQuoteUrl amount tokenFrom tokenTo chainId =
        some (API_URL_QUOTER ++ chars "/" ++ chainId ++ chars "/" ++
          intDecChars amount ++ chars "/" ++ nt ++ chars "/" ++ nf)) ∧
    (0 ≤ amount →
      fetchQuoteUrl amount tokenFrom tokenTo chainId =
        some (API_URL_QUOTER ++ chars "/" ++ chainId ++ chars "/" ++
          intDecChars amount ++ chars "/" ++ nf ++ chars "/" ++ nt)) := by
  unfold fetchQuoteUrl
  rw [hf, ht]
  constructor
  · intro hneg
    simp [hneg]
  · intro hpos
    have hnotneg : ¬amount < 0 := by omega
    simp [hnotneg]

theorem fetchQuoteUrl_c4_witness :
    fetchQuoteUrl (-1000000000000000000) ETH_ADDRESS STRK_ADDRESS CHAIN_ID_MAINNET =
      some (API_URL_QUOTER ++ chars "/" ++ CHAIN_ID_MAINNET ++ chars "/" ++
        intDecChars (-1000000000000000000) ++ chars "/" ++
        (chars "0x4718f5a0fc34cc1af16a1cdee98ffb20c31f5cd61d6ab07201858f4287c938d") ++
        chars "/" ++
        (chars "0x49d36570d4e46f48e99674bd3fcc84644ddd6b96f7c741b1562b82f9e004dc7")) :=
  (fetchQuoteUrl_c4 (-1000000000000000000) ETH_ADDRESS STRK_ADDRESS CHAIN_ID_MAINNET
    _ _ (by decide) (by decide)).1 (by decide)

/-- The operation count of `retryLoop` never exceeds the remaining
attempt budget. -/
theorem retryLoop_count_le {T : Type} (fn : Nat → Except EkuboError T)
    (aborted : Nat → Bool) :
    ∀ (remaining attempt : Nat) (lastError : Option EkuboError),
      (retryLoop fn aborted remaining attempt lastError).2 ≤ remaining := by
  intro remaining
  induction remaining with
  | zero => intro attempt lastError; simp [retryLoop]
  | succ k ih =>
    intro attempt lastError
    simp only [retryLoop]
    split
    · simp
    · split
      · simp
      · rename_i e _
        split
        · simp
        · split
          · simp
          · split
            · simp
            · simpa using Nat.succ_le_succ (ih (attempt + 1) (some e))

/-- When every invocation fails with a retryable error and no abort is
requested, `retryLoop` uses the whole budget and surfaces the error of
the final attempt. -/
theorem retryLoop_all_fail {T : Type} (fn : Nat → Except EkuboError T)
    (es : Nat → EkuboError)
    (hfail : ∀ i, fn i = .error (es i))
    (hretry : ∀ i, retryableError (es i) = true) :
    ∀ (remaining attempt : Nat) (lastError : Option EkuboError), 0 < remaining →
      retryLoop fn (fun _ => false) remaining attempt lastError =
        (.error (es (attempt + remaining - 1)), remaining) := by
  intro remaining
  induction remaining with
  | zero => intro attempt lastError hpos; exact absurd hpos (by simp)
  | succ k ih =>
    intro attempt lastError _
    have hr := hretry attempt
    simp only [retryableError, Bool.and_eq_true, decide_eq_true_eq,
      Bool.not_eq_eq_eq_not, Bool.not_true] at hr
    simp only [retryLoop, Bool.false_eq_true, if_false, hfail attempt,
      if_neg hr.1, hr.2, Bool.false_eq_true, if_false]
    by_cases hk : k = 0
    · subst hk
      simp
    · rw [if_neg hk]
      rw [ih (attempt + 1) (some (es attempt)) (by omega)]
      have harith : attempt + 1 + k - 1 = attempt + (k + 1) - 1 := by omega
      rw [harith]

/-- C6: with `maxAttempts = 3`, an operation failing retryably twice then
succeeding returns the success value after exactly 3 invocations; a
non-retryable failure propagates after exactly one invocation; the
operation never runs more than `maxAttempts` times; and when every
attempt fails retryably the last error is propagated. -/
theorem withRetry_c6 {T : Type} (v : T) (fn : Nat → Except EkuboError T)
    (e0 e1 : EkuboError)
    (h0 : fn 0 = .error e0) (h1 : fn 1 = .error e1) (h2 : fn 2 = .ok v)
    (hr0 : retryableError e0 = true) (hr1 : retryableError e1 = true) :
    withRetry fn 3 (fun _ => false) = (.ok v, 3) ∧
    (∀ (g : Nat → Except EkuboError T) (e : EkuboError),
      g 0 = .error e → isNonRetryableError e = true →
      withRetry g 3 (fun _ => false) = (.error e, 1)) ∧
    (∀ (g : Nat → Except EkuboError T) (aborted : Nat → Bool) (m : Nat),
      (withRetry g m aborted).2 ≤ m) ∧
    (∀ (g : Nat → Except EkuboError T) (es : Nat → EkuboError) (m : Nat),
      0 < m → (∀ i, g i = .error (es i)) → (∀ i, retryableError (es i) = true) →
      withRetry g m (fun _ => false) = (.error (es (m - 1)), m)) := by
  simp only [retryableError, Bool.and_eq_true, decide_eq_true_eq,
    Bool.not_eq_eq_eq_not, Bool.not_true] at hr0 hr1
  refine ⟨?_, ?_, ?_, ?_⟩
  · simp [withRetry, retryLoop, h0, h1, h2, hr0.1, hr0.2, hr1.1, hr1.2]
  · intro g e hg hnr
    by_cases hname : errName e = chars "AbortError"
    · simp [withRetry, retryLoop, hg, hname]
    · simp [withRetry, retryLoop, hg, hname, hnr]
  · intro g aborted m
    exact retryLoop_count_le g aborted m 0 none
  · intro g es m hm hfail hretry
    have h := retryLoop_all_fail g es hfail hretry m 0 none hm
    simpa using h

theorem withRetry_c6_witness :
    withRetry (fun i => if i < 2 then .error (.apiError (some 500)) else .ok (42 : Nat))
      3 (fun _ => false) = (.ok 42, 3) :=
  (withRetry_c6 42
    (fun i => if i < 2 then .error (.apiError (some 500)) else .ok (42 : Nat))
    (.apiError (some 500)) (.apiError (some 500))
    rfl rfl rfl (by decide) (by decide)).1

/-- C7 (amended): when the cancellation signal is already set before an
attempt, both retry loops fail immediately without invoking the
operation; `fetchSwapQuote` raises the taxonomy `AbortError`, but
`withRetry` raises a plain `Error("Request aborted")` that is not
Cancelled-classified. -/
theorem retryAbort_c7_amended {T : Type} (fn : Nat → Except EkuboError T)
    (outcomes : Nat → FetchOutcome) (aborted : Nat → Bool)
    (remaining attempt : Nat) (lastError : Option EkuboError)
    (h : aborted attempt = true) :
    retryLoop fn aborted (remaining + 1) attempt lastError =
      (.error (.generic (chars "Request aborted")), 0) ∧
    fetchQuoteLoop outcomes aborted (remaining + 1) attempt lastError =
      (.error .abortError, 0) ∧
    isNonRetryableError .abortError = true ∧
    errName .abortError = chars "AbortError" ∧
    isNonRetryableError (.generic (chars "Request aborted")) = false ∧
    errName (.generic (chars "Request aborted")) ≠ chars "AbortError" := by
  refine ⟨?_, ?_, by decide, by decide, by decide, by decide⟩
  · simp [retryLoop, h]
  · simp [fetchQuoteLoop, h]

theorem retryAbort_c7_witness :
    retryLoop (fun _ => .ok (0 : Nat)) (fun _ => true) 3 0 none =
      (.error (.generic (chars "Request aborted")), 0) ∧
    fetchQuoteLoop (fun _ => .otherStatus 500) (fun _ => true) 3 0 none =
      (.error .abortError, 0) :=
  have h := retryAbort_c7_amended (fun _ => .ok (0 : Nat))
    (fun _ => .otherStatus 500) (fun _ => true) 2 0 none rfl
  ⟨h.1, h.2.1⟩

/-- C7 counterexample: `withRetry` with the signal already set fails with
a plain `Error` whose classification is retryable-generic, not the
taxonomy's Cancelled/Abort variant, contradicting the claim as stated. -/
theorem withRetry_c7_counterexample :
    withRetry (fun _ => .ok (0 : Nat)) 3 (fun _ => true) =
      (.error (.generic (chars "Request aborted")), 0) ∧
    isNonRetryableError (.generic (chars "Request aborted")) = false ∧
    errName (.generic (chars "Request aborted")) ≠ chars "AbortError" ∧
    EkuboError.generic (chars "Request aborted") ≠ .abortError :=
  ⟨rfl, by decide, by decide, by decide⟩

/-- `abs` of a bigint is non-negative. -/
theorem intAbs_nonneg (v : Int) : 0 ≤ intAbs v := by
  unfold intAbs
  split <;> omega

/-- `abs` of a bigint ignores the sign. -/
theorem intAbs_neg (v : Int) : intAbs (-v) = intAbs v := by
  unfold intAbs
  split <;> split <;> omega

/-- Every value `parseTotalCalculated` produces is non-negative. -/
theorem parseTotalCalculated_nonneg (t : TotalCalculated) (v : Int)
    (h : parseTotalCalculated t = some v) : 0 ≤ v := by
  cases t with
  | str s =>
    unfold parseTotalCalculated at h
    simp only at h
    cases hj : jsBigInt? s with
    | none => rw [hj] at h; exact absurd h (by simp)
    | some w =>
      rw [hj] at h
      simp only [Option.map_some'] at h
      injection h with h
      subst h
      exact intAbs_nonneg w
  | num x =>
    unfold parseTotalCalculated at h
    simp only at h
    injection h with h
    subst h
    exact intAbs_nonneg _

/-- When an attempt of `fetchSwapQuote` yields a quote, its `total` is
non-negative. -/
theorem fetchAttemptResult_total_nonneg (o : FetchOutcome) (q : SwapQuote)
    (h : fetchAttemptResult o = .ok q) : 0 ≤ q.total := by
  cases o with
  | okBody body =>
    unfold fetchAttemptResult at h
    simp only at h
    cases hp : parseTotalCalculated body.total_calculated with
    | none => rw [hp] at h; exact absurd h (by simp)
    | some total =>
      rw [hp] at h
      injection h with h
      subst h
      exact parseTotalCalculated_nonneg _ _ hp
  | okErrorField msg =>
    unfold fetchAttemptResult at h
    simp only at h
    split at h <;> simp at h
  | notFound parsedError =>
    unfold fetchAttemptResult at h
    simp only at h
    rcases parsedError with _ | msg
    · simp at h
    · simp only at h
      split at h <;> simp at h
  | rateLimited retryAfter => simp [fetchAttemptResult] at h
  | otherStatus code => simp [fetchAttemptResult] at h
  | fetchThrew e => simp [fetchAttemptResult] at h

/-- Every quote `fetchQuoteLoop` returns has a non-negative `total`. -/
theorem fetchQuoteLoop_total_nonneg (outcomes : Nat → FetchOutcome)
    (aborted : Nat → Bool) :
    ∀ (remaining attempt : Nat) (lastError : Option EkuboError) (q : SwapQuote),
      (fetchQuoteLoop outcomes aborted remaining attempt lastError).1 = .ok q →
      0 ≤ q.total := by
  intro remaining
  induction remaining with
  | zero => intro attempt lastError q h; simp [fetchQuoteLoop] at h
  | succ k ih =>
    intro attempt lastError q h
    simp only [fetchQuoteLoop] at h
    split at h
    · simp at h
    · split at h
      · split at h
        · simp at h
        · exact ih (attempt + 1) lastError q (by simpa using h)
      · rename_i o _
        split at h
        · rename_i q1 hq1
          injection h with h
          subst h
          exact fetchAttemptResult_total_nonneg _ q1 hq1
        · split at h
          · simp at h
          · split at h
            · simp at h
            · split at h
              · simp at h
              · exact ih (attempt + 1) _ q (by simpa using h)

/-- C5 counterexample: the numeric inputs `1.5` and `-1.5` are equal in
magnitude and opposite in sign, yet normalization floors before taking
the absolute value and produces `1` and `2`. -/
theorem parseTotalCalculated_c5_counterexample :
    parseTotalCalculated (.num (3 / 2)) = some 1 ∧
    parseTotalCalculated (.num (-(3 / 2))) = some 2 ∧
    parseTotalCalculated (.num (3 / 2)) ≠ parseTotalCalculated (.num (-(3 / 2))) := by
  have h1 : parseTotalCalculated (.num (3 / 2)) = some 1 := by
    norm_num [parseTotalCalculated, jsMathFloor, intAbs]
  have h2 : parseTotalCalculated (.num (-(3 / 2))) = some 2 := by
    norm_num [parseTotalCalculated, jsMathFloor, intAbs]
  refine ⟨h1, h2, ?_⟩
  rw [h1, h2]
  decide

/-- C5 (amended): for string inputs, and for integer-valued numeric
inputs, two `total_calculated` values equal in magnitude and opposite in
sign normalize to the same non-negative `total`; every parsed total, and
the `total` of every quote `fetchSwapQuote` returns, is non-negative. -/
theorem parseTotalCalculated_c5_amended :
    (∀ (s1 s2 : JStr) (v : Int),
      jsBigInt? s1 = some v → jsBigInt? s2 = some (-v) →
      parseTotalCalculated (.str s1) = parseTotalCalculated (.str s2) ∧
      parseTotalCalculated (.str s1) = some (intAbs v)) ∧
    (∀ n : Int, parseTotalCalculated (.num (n : Rat)) =
      parseTotalCalculated (.num (-(n : Rat))) ∧
      parseTotalCalculated (.num (n : Rat)) = some (intAbs n)) ∧
    (∀ (t : TotalCalculated) (v : Int), parseTotalCalculated t = some v → 0 ≤ v) ∧
    (∀ (outcomes : Nat → FetchOutcome) (aborted : Nat → Bool)
      (remaining attempt : Nat) (lastError : Option EkuboError) (q : SwapQuote),
      (fetchQuoteLoop outcomes aborted remaining attempt lastError).1 = .ok q →
      0 ≤ q.total) := by
  refine ⟨?_, ?_, parseTotalCalculated_nonneg, fetchQuoteLoop_total_nonneg⟩
  · intro s1 s2 v h1 h2
    constructor
    · simp [parseTotalCalculated, h1, h2, intAbs_neg]
    · simp [parseTotalCalculated, h1]
  · intro n
    have hfl : jsMathFloor (n : Rat) = n := by
      simp [jsMathFloor]
    have hfln : jsMathFloor (-(n : Rat)) = -n := by
      have hcast : (-(n : Rat)) = ((-n : Int) : Rat) := by push_cast; ring
      rw [jsMathFloor, hcast, Int.floor_intCast]
    constructor
    · simp [parseTotalCalculated, hfl, hfln, intAbs_neg]
    · simp [parseTotalCalculated, hfl]

theorem parseTotalCalculated_c5_witness :
    parseTotalCalculated (.str (chars "123")) = some (intAbs 123) :=
  (parseTotalCalculated_c5_amended.1 (chars "123") (chars "-123") 123
    (by decide) (by decide)).2

/-- C9: with error threshold 3, a running poller hit by three consecutive
fetch failures ends not running with its timer and abort controller
released, its stop callback fired with reason `errors` exactly once over
the whole run, and any later fetch completion issues no fetch and no
callback; a restart is possible (`start` turns it running again). -/
theorem poller_c9 (config : PollingConfig) (s : PollerState)
    (hmax : config.maxConsecutiveErrors = 3) (hrun : s.isRunning = true)
    (habc : s.hasAbortController = true) (herr : s.consecutiveErrors = 0) :
    let r1 := pollerHandleFetch config s .failure
    let r2 := pollerHandleFetch config r1.1 .failure
    let r3 := pollerHandleFetch config r2.1 .failure
    r3.1.isRunning = false ∧
    r3.1.intervalArmed = false ∧
    r3.1.hasAbortController = false ∧
    (r1.2 ++ r2.2 ++ r3.2).countP
      (fun e => decide (e = PollerEvent.onStop StopReason.errors)) = 1 ∧
    (∀ outcome, pollerHandleFetch config r3.1 outcome = (r3.1, [])) ∧
    (pollerStart r3.1).isRunning = true := by
  obtain ⟨ia, hab, ce, ir⟩ := s
  simp only at hrun habc herr
  subst hrun habc herr
  refine ⟨?_, ?_, ?_, ?_, ?_, ?_⟩ <;>
    simp [pollerHandleFetch, pollerStart, hmax]

theorem poller_c9_witness :
    (pollerHandleFetch {} (pollerHandleFetch {} (pollerHandleFetch {}
        (pollerStart pollerInitial) .failure).1 .failure).1 .failure).1.isRunning =
      false := by
  have h := poller_c9 {} (pollerStart pollerInitial) rfl rfl rfl rfl
  simp only at h
  exact h.1

/-- Lowercasing fixes the characters `toString(16)` emits. -/
theorem toLower_digitChar (m : Nat) (h : m < 16) :
    Char.toLower (Nat.digitChar m) = Nat.digitChar m := by
  interval_cases m <;> decide

/-- Parsing inverts rendering on a single hex digit. -/
theorem hexDigitVal_digitChar (m : Nat) (h : m < 16) :
    hexDigitVal? (Nat.digitChar m) = some m := by
  interval_cases m <;> decide

/-- The hex rendering consists of lowercase-stable characters. -/
theorem natHexDigitsAux_toLower :
    ∀ fuel n, List.map Char.toLower (natHexDigitsAux fuel n) = natHexDigitsAux fuel n := by
  intro fuel
  induction fuel with
  | zero => intro n; rfl
  | succ k ih =>
    intro n
    by_cases h16 : n < 16
    · simp [natHexDigitsAux, h16, toLower_digitChar n h16]
    · simp [natHexDigitsAux, h16, ih (n / 16),
        toLower_digitChar (n % 16) (Nat.mod_lt n (by omega))]

/-- Digit accumulation distributes over append. -/
theorem parseHexDigitsAux_append :
    ∀ (l1 l2 : List Char) (acc : Nat),
      parseHexDigitsAux (l1 ++ l2) acc =
        (parseHexDigitsAux l1 acc).bind (fun m => parseHexDigitsAux l2 m) := by
  intro l1
  induction l1 with
  | nil => intro l2 acc; rfl
  | cons c cs ih =>
    intro l2 acc
    simp only [List.cons_append, parseHexDigitsAux]
    cases hexDigitVal? c with
    | none => rfl
    | some d => simpa using ih l2 (acc * 16 + d)

/-- With enough fuel, accumulating the rendered digits of `n` onto `acc`
yields `acc` shifted past those digits plus `n`. -/
theorem natHexDigitsAux_parse :
    ∀ (fuel n acc : Nat), n < 16 ^ fuel →
      parseHexDigitsAux (natHexDigitsAux fuel n) acc =
        some (acc * 16 ^ (natHexDigitsAux fuel n).length + n) := by
  intro fuel
  induction fuel with
  | zero =>
    intro n acc hn
    have : n = 0 := by simpa using hn
    subst this
    simp [natHexDigitsAux, parseHexDigitsAux]
  | succ k ih =>
    intro n acc hn
    by_cases h16 : n < 16
    · simp [natHexDigitsAux, h16, parseHexDigitsAux, hexDigitVal_digitChar n h16]
    · have hdiv : n / 16 < 16 ^ k := by
        rw [Nat.div_lt_iff_lt_mul (by omega)]
        calc n < 16 ^ (k + 1) := hn
        _ = 16 ^ k * 16 := by rw [pow_succ]
      simp only [natHexDigitsAux, h16, if_false]
      rw [parseHexDigitsAux_append, ih (n / 16) acc hdiv]
      simp only [Option.some_bind', parseHexDigitsAux,
        hexDigitVal_digitChar (n % 16) (Nat.mod_lt n (by omega))]
      rw [List.length_append]
      simp only [List.length_singleton]
      rw [pow_succ, ← mul_assoc, Option.some_inj]
      generalize acc * 16 ^ (natHexDigitsAux k (n / 16)).length = A
      have hmod := Nat.div_add_mod n 16
      omega

/-- The renderer never emits an empty digit string when it has fuel. -/
theorem natHexDigitsAux_ne_nil (fuel n : Nat) :
    natHexDigitsAux (fuel + 1) n ≠ [] := by
  by_cases h16 : n < 16 <;> simp [natHexDigitsAux, h16]

/-- Round trip: parsing the rendered hex digits of `n` returns `n`. -/
theorem parse_natHexDigits (n : Nat) :
    parseHexDigits (natHexDigits n) = some n := by
  have hfuel : n < 16 ^ (n + 1) :=
    lt_of_lt_of_le (Nat.lt_pow_self (by norm_num) n)
      (Nat.pow_le_pow_right (by norm_num) (Nat.le_succ n))
  have hne := natHexDigitsAux_ne_nil n n
  unfold parseHexDigits natHexDigits
  rw [if_neg (by simpa using hne)]
  rw [natHexDigitsAux_parse (n + 1) n 0 hfuel]
  simp

/-- A nonzero value renders with no leading zero digit. -/
theorem natHexDigitsAux_head :
    ∀ fuel n, 0 < n → n < 16 ^ fuel →
      (natHexDigitsAux fuel n).head? ≠ some '0' := by
  intro fuel
  induction fuel with
  | zero => intro n hn h1; omega
  | succ k ih =>
    intro n hn hlt
    by_cases h16 : n < 16
    · simp only [natHexDigitsAux, h16, if_true]
      interval_cases n <;> decide
    · simp only [natHexDigitsAux, h16, if_false]
      cases k with
      | zero => omega
      | succ k1 =>
        have hdivpos : 0 < n / 16 := Nat.div_pos (by omega) (by omega)
        have hdiv : n / 16 < 16 ^ (k1 + 1) := by
          rw [Nat.div_lt_iff_lt_mul (by omega)]
          calc n < 16 ^ (k1 + 1 + 1) := hlt
          _ = 16 ^ (k1 + 1) * 16 := by rw [pow_succ]
        have hih := ih (n / 16) hdivpos hdiv
        cases hl : natHexDigitsAux (k1 + 1) (n / 16) with
        | nil => exact absurd hl (natHexDigitsAux_ne_nil k1 (n / 16))
        | cons a t =>
          rw [hl] at hih
          simpa using hih

/-- `jsBigInt?` on a `0x`-headed string parses the hex digits. -/
theorem jsBigInt_hex (cs : List Char) :
    jsBigInt? ('0' :: 'x' :: cs) = (parseHexDigits cs).map (fun m => (m : Int)) :=
  rfl

/-- `normalizeAddress` of any string parsing to the non-negative value
`n` is the lowercase canonical rendering of `n`. -/
theorem normalizeAddress_canonical (s : JStr) (n : Nat)
    (hs : jsBigInt? s = some (n : Int)) :
    normalizeAddress s = some ('0' :: 'x' :: natHexDigits n) := by
  unfold normalizeAddress toHexOfChars
  rw [hs]
  have hnn : ¬((n : Int) < 0) := by omega
  have h0 : Char.toLower '0' = '0' := by decide
  have hx : Char.toLower 'x' = 'x' := by decide
  simp [toHexInt, hnn, natHexDigits, h0, hx, natHexDigitsAux_toLower]

/-- C8: all valid address spellings (hex with leading zeros or mixed
case, or decimal) of the same value normalize to the identical lowercase
`0x` string with no superfluous leading zeros, and `normalizeAddress` is
idempotent on its own output. -/
theorem normalizeAddress_c8 (s1 s2 : JStr) (n : Nat)
    (h1 : jsBigInt? s1 = some (n : Int)) (h2 : jsBigInt? s2 = some (n : Int)) :
    normalizeAddress s1 = normalizeAddress s2 ∧
    normalizeAddress s1 = some ('0' :: 'x' :: natHexDigits n) ∧
    normalizeAddress ('0' :: 'x' :: natHexDigits n) =
      some ('0' :: 'x' :: natHexDigits n) ∧
    List.map Char.toLower ('0' :: 'x' :: natHexDigits n) =
      '0' :: 'x' :: natHexDigits n ∧
    (n ≠ 0 → (natHexDigits n).head? ≠ some '0') := by
  have hcanon1 := normalizeAddress_canonical s1 n h1
  have hcanon2 := normalizeAddress_canonical s2 n h2
  have hparse : jsBigInt? ('0' :: 'x' :: natHexDigits n) = some (n : Int) := by
    rw [jsBigInt_hex, parse_natHexDigits]
    rfl
  have h0 : Char.toLower '0' = '0' := by decide
  have hx : Char.toLower 'x' = 'x' := by decide
  refine ⟨by rw [hcanon1, hcanon2], hcanon1,
    normalizeAddress_canonical _ n hparse, ?_, ?_⟩
  · simp [natHexDigits, h0, hx, natHexDigitsAux_toLower]
  · intro hn0
    have hfuel : n < 16 ^ (n + 1) :=
      lt_of_lt_of_le (Nat.lt_pow_self (by norm_num) n)
        (Nat.pow_le_pow_right (by norm_num) (Nat.le_succ n))
    exact natHexDigitsAux_head (n + 1) n (by omega) hfuel

theorem normalizeAddress_c8_witness :
    normalizeAddress (chars "0x00FF") = normalizeAddress (chars "255") ∧
    normalizeAddress (chars "0x00FF") = some ('0' :: 'x' :: natHexDigits 255) := by
  have h := normalizeAddress_c8 (chars "0x00FF") (chars "255") 255
    (by decide) (by decide)
  exact ⟨h.1, h.2.1⟩

end Ekubo
